import Mathlib

/-!
Verification development for the documentation-server repository.

The definitions below are shallow embeddings of the TypeScript source:
pure functions become Lean functions, stateful code becomes explicit
state passing, thrown exceptions become `Except`, and JavaScript strings
are modelled as Lean `String` / `List Char`.  Each definition is named
after the source function it embeds.
-/

namespace Spec2Proof

/-! ## JavaScript string primitives used across the code base -/

/-- Embedding of `String.prototype.includes`: substring containment. -/
def jsIncludes (hay needle : List Char) : Bool :=
  decide (needle <:+: hay)

/-- Embedding of `String.prototype.toLowerCase` (ASCII range, which is
all the code relies on). -/
def jsLower (s : String) : List Char :=
  s.data.map Char.toLower

/-- Non-overlapping, leftmost occurrence count of a nonempty needle.
Each step consumes at least one character, so fuel equal to the
haystack length makes the recursion structural. -/
def countOccFuel (n0 : Char) (ntail : List Char) : Nat → List Char → Nat
  | 0, _ => 0
  | _, [] => 0
  | fuel + 1, c :: rest =>
    if (n0 :: ntail).isPrefixOf (c :: rest) then
      1 + countOccFuel n0 ntail fuel (rest.drop ntail.length)
    else
      countOccFuel n0 ntail fuel rest

/-- Occurrence count of a query term, the quantity the specification's
scoring rule is written in terms of ("title term-count", "content
term-count"); an empty term matches at every position, which for a
string of length n is n + 1 matches.  The source instead computes
`(lower.match(new RegExp(term, 'g')) || []).length`, compiling the RAW
term as a regex pattern: for a metacharacter-free term that expression
equals this count, but a term containing regex metacharacters is
counted as a pattern, and an invalid pattern (such as `c++`) makes the
`RegExp` constructor throw — the defect recorded at claim C6. -/
def countOcc (needle hay : List Char) : Nat :=
  match needle with
  | [] => hay.length + 1
  | n0 :: ntail => countOccFuel n0 ntail hay.length hay

/-- Embedding of `String.prototype.split` against a character-class
regex `/[cls]+/`: separators are maximal nonempty runs of class
characters, and a leading or trailing run contributes an empty field,
exactly as in JavaScript. -/
def splitClsFuel (isSep : Char → Bool) : Nat → List Char → List (List Char)
  | 0, l => [l.takeWhile (fun c => ¬ isSep c)]
  | fuel + 1, l =>
    let tok := l.takeWhile (fun c => ¬ isSep c)
    match l.dropWhile (fun c => ¬ isSep c) with
    | [] => [tok]
    | _ :: tl => tok :: splitClsFuel isSep fuel (tl.dropWhile isSep)

def splitCls (isSep : Char → Bool) (l : List Char) : List (List Char) :=
  splitClsFuel isSep l.length l

/-- Character class of the JavaScript regex `\s` (ASCII part). -/
def isJsWs (c : Char) : Bool :=
  c = ' ' || c = '\t' || c = '\n' || c = '\r' || c.val = 11 || c.val = 12

/-! ## `src/utils/cache.ts`: `sanitizeFilename` -/

/-- Character class of the regex `/[^a-z0-9_-]/gi`: the characters the
sanitizer keeps unchanged. -/
def jsAllowedChar (c : Char) : Bool :=
  ('a' ≤ c && c ≤ 'z') || ('A' ≤ c && c ≤ 'Z') || ('0' ≤ c && c ≤ '9')
    || c = '_' || c = '-'

/-- First `replace` of `sanitizeFilename`: every character outside the
allowed class becomes an underscore. -/
def replaceDisallowed (l : List Char) : List Char :=
  l.map (fun c => if jsAllowedChar c then c else '_')

/-- Second `replace` of `sanitizeFilename`: `/_+/g` collapses each run
of underscores to a single underscore.  The flag records whether the
previous emitted character closed an underscore run. -/
def collapseUnd : Bool → List Char → List Char
  | _, [] => []
  | prev, c :: rest =>
    if c = '_' then
      if prev then collapseUnd true rest else '_' :: collapseUnd true rest
    else
      c :: collapseUnd false rest

/-- Embedding of `sanitizeFilename` from `src/utils/cache.ts`: replace
disallowed characters by `_`, collapse underscore runs, truncate to 255
characters. -/
def sanitizeFilename (s : String) : String :=
  String.mk ((collapseUnd false (replaceDisallowed s.data)).take 255)

/-! ## `src/cache/storage.ts`: `FileStorage.getFilename` -/

/-- Embedding of the private `FileStorage.getFilename`: rejects empty
and over-long keys, sanitizes, and only then tests the sanitized name
for a leading dot or a `..` sequence before appending `.json`. -/
def getFilename (key : String) : Except String String :=
  if key.length = 0 then
    Except.error "Cache key cannot be empty"
  else if key.length > 200 then
    Except.error "Cache key too long"
  else
    let sanitized := sanitizeFilename key
    if decide (sanitized.data.head? = some '.') || jsIncludes sanitized.data ['.', '.'] then
      Except.error "Invalid cache key format"
    else
      Except.ok (sanitized ++ ".json")


/-! ## `src/cache`: entries, two-tier state, and operations

The memory tier (a NodeCache instance) and the durable tier (one JSON
file per sanitized key under the cache directory) are modelled as
association lists; the durable tier is keyed by the filename produced by
`getFilename`.  File input/output is assumed to succeed; a thrown
`getFilename` error is the only `Except.error` the durable operations
produce, which is what the claims under verification exercise. -/

/-- Embedding of the `CacheEntry<T>` record from `src/types.ts`. -/
structure CacheEntryM (α : Type) where
  data : α
  timestamp : Nat
  ttl : Nat
deriving Repr, DecidableEq

/-- Embedding of `isCacheExpired` from `src/utils/cache.ts`:
`Date.now() - timestamp > ttl * 1000`. -/
def isCacheExpired (now timestamp ttl : Nat) : Bool :=
  ttl * 1000 < now - timestamp

/-- Association-list deletion, the model of removing a key from a
JavaScript Map / NodeCache / directory. -/
def alErase {β : Type} (k : String) (l : List (String × β)) : List (String × β) :=
  l.filter (fun p => p.1 ≠ k)

/-- Association-list insertion with overwrite semantics. -/
def alInsert {β : Type} (k : String) (v : β) (l : List (String × β)) :
    List (String × β) :=
  (k, v) :: alErase k l

/-- The process-wide cache state: memory tier keyed by the raw cache
key, durable tier keyed by the sanitized filename. -/
structure CacheState (α : Type) where
  memory : List (String × CacheEntryM α)
  files : List (String × CacheEntryM α)
deriving Repr

/-- Embedding of `FileStorage.get`: map the key to a filename (which can
throw) and read the file; a missing file is `none`. -/
def fileGetE {α : Type} (key : String) (files : List (String × CacheEntryM α)) :
    Except String (Option (CacheEntryM α)) :=
  (getFilename key).map (fun fn => files.lookup fn)

/-- Embedding of `FileStorage.set`: map the key to a filename (which can
throw) and write the entry. -/
def fileSetE {α : Type} (key : String) (entry : CacheEntryM α)
    (files : List (String × CacheEntryM α)) :
    Except String (List (String × CacheEntryM α)) :=
  (getFilename key).map (fun fn => alInsert fn entry files)

/-- Embedding of `FileStorage.delete`: map the key to a filename (which
can throw) and unlink the file (a missing file is not an error). -/
def fileDeleteE {α : Type} (key : String) (files : List (String × CacheEntryM α)) :
    Except String (List (String × CacheEntryM α)) :=
  (getFilename key).map (fun fn => alErase fn files)

/-- The durable-tier half of `DocumentationCache.get`: try the file
storage inside a try/catch whose catch logs and falls through to the
miss.  An unexpired file hit is restored into the memory tier; an
expired file entry is deleted from the durable tier. -/
def cacheGetFile {α : Type} (st : CacheState α) (key : String) (now : Nat) :
    Option α × CacheState α :=
  match fileGetE key st.files with
  | Except.error _ => (none, st)
  | Except.ok none => (none, st)
  | Except.ok (some fe) =>
    if isCacheExpired now fe.timestamp fe.ttl then
      match fileDeleteE key st.files with
      | Except.error _ => (none, st)
      | Except.ok files2 => (none, { st with files := files2 })
    else
      (some fe.data, { st with memory := alInsert key fe st.memory })

/-- Embedding of `DocumentationCache.get`: memory tier first, with an
explicit expiry check and eviction, then the durable tier. -/
def cacheGet {α : Type} (st : CacheState α) (key : String) (now : Nat) :
    Option α × CacheState α :=
  match st.memory.lookup key with
  | some e =>
    if isCacheExpired now e.timestamp e.ttl then
      cacheGetFile { st with memory := alErase key st.memory } key now
    else
      (some e.data, st)
  | none => cacheGetFile st key now

/-- Modelled from the spec wording of the `get(key)` contract: the
durable tier, viewed as a partial map from keys, is consulted only
after the memory tier; this definition follows the specification
sentence by sentence and is compared with `cacheGet`. -/
def durableLookup {α : Type} (key : String) (files : List (String × CacheEntryM α)) :
    Option (CacheEntryM α) :=
  match getFilename key with
  | Except.ok fn => files.lookup fn
  | Except.error _ => none

/-- Spec-side removal of the durable entry for a key. -/
def durableErase {α : Type} (key : String) (files : List (String × CacheEntryM α)) :
    List (String × CacheEntryM α) :=
  match getFilename key with
  | Except.ok fn => alErase fn files
  | Except.error _ => files

/-- Spec-side durable-tier consultation for `get`. -/
def cacheGetSpecFile {α : Type} (st : CacheState α) (key : String) (now : Nat) :
    Option α × CacheState α :=
  match durableLookup key st.files with
  | some fe =>
    if isCacheExpired now fe.timestamp fe.ttl then
      (none, { st with files := durableErase key st.files })
    else
      (some fe.data, { st with memory := alInsert key fe st.memory })
  | none => (none, st)

/-- The `get(key)` contract exactly as the specification states it:
check memory tier; if present and unexpired, return; if expired, evict
and fall through; else check durable tier; if present and unexpired,
repopulate memory and return; if expired, delete from durable tier;
else return miss. -/
def cacheGetSpec {α : Type} (st : CacheState α) (key : String) (now : Nat) :
    Option α × CacheState α :=
  match st.memory.lookup key with
  | some e =>
    if isCacheExpired now e.timestamp e.ttl then
      cacheGetSpecFile { st with memory := alErase key st.memory } key now
    else
      (some e.data, st)
  | none => cacheGetSpecFile st key now

/-- Embedding of `DocumentationCache.clear`: `flushAll` on the memory
tier and deletion of every file in the durable tier. -/
def cacheClear {α : Type} (_ : CacheState α) : CacheState α :=
  { memory := [], files := [] }

/-- Embedding of `MCPDocsServer.stop` (invoked by the SIGINT and
SIGTERM handlers): its only cache effect is `cache.clear()`. -/
def serverStop {α : Type} (st : CacheState α) : CacheState α :=
  cacheClear st

/-- A later process instance sharing the same durable root: empty
memory tier over the surviving files. -/
def coldStart {α : Type} (files : List (String × CacheEntryM α)) : CacheState α :=
  { memory := [], files := files }

/-! ## `src/utils/cache.ts`: `generateCacheKey` -/

/-- JavaScript values that appear in tool parameter records. -/
inductive JsVal where
  | nullV
  | undefV
  | strV (s : String)
  | numV (n : Int)
  | boolV (b : Bool)
deriving Repr, DecidableEq

/-- The `params[key] !== undefined && params[key] !== null` test,
negated. -/
def isNullish : JsVal → Bool
  | JsVal.nullV => true
  | JsVal.undefV => true
  | _ => false

/-- The keys of a parameter record (`Object.keys`). -/
def jsKeys (p : List (String × JsVal)) : List String :=
  p.map Prod.fst

/-- Lexicographic string comparison used for `Object.keys(params).sort()`. -/
def strLe (a b : String) : Bool :=
  decide (a ≤ b)

/-- Embedding of the canonicalization inside `generateCacheKey`: sort
the keys, then rebuild the record keeping only entries whose value is
neither null nor undefined. -/
def canonicalParams (p : List (String × JsVal)) : List (String × JsVal) :=
  ((jsKeys p).mergeSort strLe).filterMap
    (fun k => (p.lookup k).bind
      (fun v => if isNullish v then none else some (k, v)))

/-- Minimal JSON string escaping (quote and backslash). -/
def jsonEscape (s : String) : String :=
  String.mk (s.data.foldr
    (fun c acc => if c = '"' || c = '\\' then '\\' :: c :: acc else c :: acc) [])

/-- JSON serialization of a single value. -/
def stringifyVal : JsVal → String
  | JsVal.nullV => "null"
  | JsVal.undefV => "undefined"
  | JsVal.strV s => "\"" ++ jsonEscape s ++ "\""
  | JsVal.numV n => toString n
  | JsVal.boolV b => if b then "true" else "false"

/-- JSON serialization of the canonical record, in property order. -/
def stringifyParams (l : List (String × JsVal)) : String :=
  "\x7b" ++ String.intercalate ","
    (l.map (fun p => "\"" ++ jsonEscape p.1 ++ "\":" ++ stringifyVal p.2))
    ++ "\x7d"

/-- Embedding of `generateCacheKey` from `src/utils/cache.ts`.  The
sha256-prefix digest is modelled as an arbitrary function of the
serialized canonical record, because every claim about this function
holds for any deterministic digest. -/
def generateCacheKey (digest : String → String) (pre : String)
    (params : List (String × JsVal)) : String :=
  pre ++ ":" ++ digest (stringifyParams (canonicalParams params))

/-! ## `src/scrapers/base.ts`: URL guard and guarded fetch -/

/-- The result of `new URL(url, baseUrl)`: the two components the guard
reads.  URL parsing itself is an external collaborator. -/
structure ParsedUrl where
  protocol : String
  hostname : String
deriving Repr, DecidableEq

/-- Embedding of `String.prototype.startsWith`. -/
def jsStartsWith (s pre : String) : Bool :=
  pre.data.isPrefixOf s.data

/-- Embedding of the regex test `/^172\.(1[6-9]|2[0-9]|3[0-1])\./`. -/
def is172Private (host : String) : Bool :=
  match host.data with
  | '1' :: '7' :: '2' :: '.' :: d1 :: d2 :: '.' :: _ =>
    (d1 = '1' && '6' ≤ d2 && d2 ≤ '9')
      || (d1 = '2' && '0' ≤ d2 && d2 ≤ '9')
      || (d1 = '3' && (d2 = '0' || d2 = '1'))
  | _ => false

/-- The hostname blocklist of `BaseScraper.validateUrl`, applied to the
already-lowercased hostname: localhost and the literal private-range
prefixes first, then the meta-addresses. -/
def validateHostname (host : String) : Except String Unit :=
  if host = "localhost" || host = "127.0.0.1"
      || jsStartsWith host "192.168." || jsStartsWith host "10."
      || is172Private host then
    Except.error ("Access to private network not allowed: " ++ host)
  else if host = "0.0.0.0" || host = "::1" || host = "[::]" then
    Except.error ("Access to meta-address not allowed: " ++ host)
  else
    Except.ok ()

/-- Embedding of `BaseScraper.validateUrl`: reject non-http(s) schemes,
then apply the hostname blocklist to the lowercased hostname. -/
def validateUrl (u : ParsedUrl) : Except String Unit :=
  if ¬ (u.protocol = "http:" || u.protocol = "https:") then
    Except.error ("Invalid protocol: " ++ u.protocol)
  else
    validateHostname (String.mk (jsLower u.hostname))

/-- Embedding of `BaseScraper.fetchHtml` (and identically `fetchJson`):
validate first, and only in the success branch perform the network call
(modelled by `net`); the boolean records whether a socket was opened. -/
def fetchHtml (net : ParsedUrl → Except String String) (u : ParsedUrl) :
    Except String String × Bool :=
  match validateUrl u with
  | Except.error e => (Except.error e, false)
  | Except.ok _ => (net u, true)

/-! ## Documentation entries and scraper results -/

/-- The `type` field of a `DocumentationEntry`. -/
inductive EntryType where
  | apiDoc
  | guideDoc
  | exampleDoc
  | migrationDoc
deriving Repr, DecidableEq

/-- Embedding of `DocumentationEntry` (the metadata map is reduced to
the two fields the tools inspect). -/
structure DocEntry where
  title : String
  content : String
  url : String
  etype : EntryType
  source : String
  language : Option String
  hasDescription : Bool
deriving Repr, DecidableEq

/-- Embedding of `ScraperResult`. -/
structure ScraperResult where
  entries : List DocEntry
  source : String
  scrapedAt : Nat
  errors : Option (List String)
deriving Repr, DecidableEq

/-! ## `src/scrapers/electron.ts`: `ElectronScraper.scrape` -/

/-- The five dispatch branches of `ElectronScraper.scrape`. -/
inductive ElectronIntent where
  | apiIntent (apiName : String) (version : Option String)
  | migrationIntent (fromV toV : String)
  | topicIntent (topic : String)
  | queryIntent (q : String)
  | defaultIntent
deriving Repr, DecidableEq

/-- Embedding of `ElectronScraper.scrape`.  The inner per-branch
scraping helpers perform network input/output, so their behaviour is a
parameter `inner`; a thrown error is `Except.error`.  The try/catch
around the dispatch turns any throw into an entry of `errors`, and the
function itself always returns an ordinary `ScraperResult`. -/
def electronScrape (inner : ElectronIntent → Except String (List DocEntry))
    (intent : ElectronIntent) (now : Nat) : ScraperResult :=
  match inner intent with
  | Except.ok es =>
    { entries := es, source := "electron", scrapedAt := now, errors := none }
  | Except.error m =>
    { entries := [], source := "electron", scrapedAt := now,
      errors := some ["Failed to scrape Electron docs: " ++ m] }

/-! ## `src/tools/search.ts`: `SearchTool` -/

/-- The filter predicate of `filterAndRankEntries`: the optional type
filter, then every query term must occur in the lowercased title or
content. -/
def keepEntry (terms : List (List Char)) (ty : Option EntryType) (e : DocEntry) : Bool :=
  (match ty with
   | some t => decide (e.etype = t)
   | none => true)
  && terms.all (fun t =>
       jsIncludes (jsLower e.title) t || jsIncludes (jsLower e.content) t)

/-- The relevance score of `filterAndRankEntries`: 100 for an exact
lowercased title match, plus 50 when the title contains the whole
query, plus per-term occurrence counts weighted 10 (title) and 2
(content).  The occurrence counts follow the specified (intended)
semantics; in the source the per-term counting compiles the raw term
with `new RegExp`, which diverges on metacharacter terms and throws out
of `filterAndRankEntries` on invalid ones — see claim C6. -/
def scoreEntry (ql : List Char) (terms : List (List Char)) (e : DocEntry) : Nat :=
  let tl := jsLower e.title
  let cl := jsLower e.content
  (if tl = ql then 100 else 0)
    + (if jsIncludes tl ql then 50 else 0)
    + terms.foldl (fun acc t => acc + (countOcc t tl * 10 + countOcc t cl * 2)) 0

/-- Embedding of `SearchTool.filterAndRankEntries`: filter, score, sort
by descending score (JavaScript sort is stable, hence mergeSort), strip
the scores. -/
def filterAndRankEntries (entries : List DocEntry) (query : String)
    (ty : Option EntryType) : List DocEntry :=
  let ql := jsLower query
  let terms := splitCls isJsWs ql
  let kept := entries.filter (keepEntry terms ty)
  let scored := kept.map (fun e => (e, scoreEntry ql terms e))
  (List.insertionSort (fun a b : DocEntry × Nat => b.2 ≤ a.2) scored).map Prod.fst

/-- Per-scraper calls of `SearchTool.search` are modelled by their
outcome: for each source either the scraper is missing from the map, or
its `scrape` resolves (`Except.ok`) or rejects (`Except.error`).  The
fold mirrors the per-source branch: a missing scraper appends a soft
error, a rejection appends a caught error, a resolution appends the
entries and any soft errors the scraper itself reported.  Sources are
processed in request order (the code fans out with `Promise.all` and
pushes in completion order; order is irrelevant to the claims). -/
def collectSearch (scrapers : List (String × Except String ScraperResult)) :
    List String → List DocEntry × List String
  | [] => ([], [])
  | s :: rest =>
    let tail := collectSearch scrapers rest
    match scrapers.lookup s with
    | none => (tail.1, ("Scraper not configured for source: " ++ s) :: tail.2)
    | some (Except.error e) =>
      (tail.1, ("Failed to search " ++ s ++ ": " ++ e) :: tail.2)
    | some (Except.ok r) => (r.entries ++ tail.1, r.errors.getD [] ++ tail.2)

/-- Embedding of `SearchResult` from `src/types.ts`. -/
structure SearchResultM where
  entries : List DocEntry
  totalCount : Nat
  query : String
  sources : List String
deriving Repr, DecidableEq

/-- Embedding of the cache-miss path of `SearchTool.search`: resolve
the requested sources (all configured ones when unspecified), collect,
rank, truncate.  Returns the result, the accumulated error list, and
the TTL passed to `cache.set`. -/
def searchMiss (scrapers : List (String × Except String ScraperResult))
    (query : String) (sourcesOpt : Option (List String)) (ty : Option EntryType)
    (limit : Nat) : SearchResultM × List String × Nat :=
  let requested := sourcesOpt.getD (scrapers.map Prod.fst)
  let collected := collectSearch scrapers requested
  let ranked := filterAndRankEntries collected.1 query ty
  ({ entries := ranked.take limit, totalCount := ranked.length,
     query := query, sources := requested }, collected.2, 1800)

/-! ## `src/tools/examples.ts`: `ExamplesTool` -/

/-- The per-source fold of `ExamplesTool.findExamples`: soft error for a
missing scraper, caught error for a rejection, otherwise keep only the
example-kind entries (this tool ignores `result.errors`). -/
def collectExamples (scrapers : List (String × Except String ScraperResult)) :
    List String → List DocEntry × List String
  | [] => ([], [])
  | s :: rest =>
    let tail := collectExamples scrapers rest
    match scrapers.lookup s with
    | none => (tail.1, ("Scraper not configured for source: " ++ s) :: tail.2)
    | some (Except.error e) =>
      (tail.1, ("Failed to find examples in " ++ s ++ ": " ++ e) :: tail.2)
    | some (Except.ok r) =>
      (r.entries.filter (fun e => decide (e.etype = EntryType.exampleDoc)) ++ tail.1,
       tail.2)

/-- Embedding of `ExamplesTool.rankExamples`. -/
def rankExamples (examples : List DocEntry) (topic : String) : List DocEntry :=
  let tl := jsLower topic
  let terms := splitCls isJsWs tl
  ((examples.map (fun ex =>
      let titleL := jsLower ex.title
      let contentL := jsLower ex.content
      (ex, (if jsIncludes titleL tl then 50 else 0)
        + terms.foldl (fun acc t =>
            acc + (if jsIncludes titleL t then 20 else 0)
              + (if jsIncludes contentL t then 5 else 0)) 0
        + (if ex.hasDescription then 10 else 0)
        + (if ex.source ≠ "github" then 15 else 0))))
    |> List.insertionSort (fun a b : DocEntry × Nat => b.2 ≤ a.2)).map Prod.fst

/-- Embedding of the cache-miss path of `ExamplesTool.findExamples`:
collect, optional case-insensitive language filter, rank, truncate;
returns the result, the error list, and the TTL passed to `cache.set`. -/
def findExamplesMiss (scrapers : List (String × Except String ScraperResult))
    (topic : String) (sourcesOpt : Option (List String))
    (language : Option String) (limit : Nat) :
    List DocEntry × List String × Nat :=
  let requested := sourcesOpt.getD (scrapers.map Prod.fst)
  let collected := collectExamples scrapers requested
  let filtered :=
    match language with
    | some lang =>
      collected.1.filter (fun ex =>
        match ex.language with
        | some l => decide (jsLower l = jsLower lang)
        | none => false)
    | none => collected.1
  ((rankExamples filtered topic).take limit, collected.2, 1800)

/-! ## `src/tools/documentation.ts`: `DocumentationTool` -/

/-- Character class of the regex `[.-_]` inside `findBestMatch`: inside
a character class the dash forms a RANGE, so this matches every
character from `.` (0x2E) to `_` (0x5F) — digits, uppercase letters and
assorted punctuation included, the literal dash excluded. -/
def isDotRange (c : Char) : Bool :=
  '.' ≤ c && c ≤ '_'

/-- Embedding of `DocumentationTool.findBestMatch`: exact lowercased
title match, else first substring match, else first entry whose title
contains any piece of the name split on the `[.-_]` class, else the
first entry, else null. -/
def findBestMatch (entries : List DocEntry) (apiName : String) : Option DocEntry :=
  let nameL := jsLower apiName
  match entries.find? (fun e => decide (jsLower e.title = nameL)) with
  | some e => some e
  | none =>
    match entries.find? (fun e => jsIncludes (jsLower e.title) nameL) with
    | some e => some e
    | none =>
      match entries.find? (fun e =>
          (splitCls isDotRange nameL).any
            (fun part => jsIncludes (jsLower e.title) part)) with
      | some e => some e
      | none => entries.head?

/-- Embedding of the cache-miss path of
`DocumentationTool.getApiReference`: a missing scraper throws; a scrape
rejection is rethrown; otherwise the best match is selected and, when
found, cached with TTL 3600.  The second component is the TTL passed to
`cache.set`, `none` when nothing is cached. -/
def getApiReference (scrapers : List (String × Except String ScraperResult))
    (apiName source : String) : Except String (Option DocEntry × Option Nat) :=
  match scrapers.lookup source with
  | none => Except.error ("Scraper not configured for source: " ++ source)
  | some (Except.error e) => Except.error e
  | some (Except.ok r) =>
    if r.entries.length > 0 then
      match findBestMatch r.entries apiName with
      | some entry => Except.ok (some entry, some 3600)
      | none => Except.ok (none, none)
    else
      Except.ok (none, none)

/-! ## `src/tools/migration.ts`: `MigrationTool` -/

/-- Embedding of the cache-miss path of
`MigrationTool.getMigrationGuide`: a missing scraper throws; a scrape
rejection is rethrown; otherwise the migration-kind entries are kept
and cached with TTL 7200. -/
def getMigrationGuide (scrapers : List (String × Except String ScraperResult))
    (source _fromV _toV : String) : Except String (List DocEntry × Option Nat) :=
  match scrapers.lookup source with
  | none => Except.error ("Scraper not configured for source: " ++ source)
  | some (Except.error e) => Except.error e
  | some (Except.ok r) =>
    Except.ok
      (r.entries.filter (fun e => decide (e.etype = EntryType.migrationDoc)),
       some 7200)

/-! ## `src/index.ts`: HTTP POST handler on the streaming binding -/

/-- The pieces of a parsed JSON-RPC request body that the handler
inspects.  Per-method argument validation is condensed into
`argsValid`. -/
structure RpcRequest where
  jsonrpcVersion : String
  idField : Option Int
  method : String
  hasProtocolVersion : Bool
  toolName : Option String
  argsValid : Bool
deriving Repr, DecidableEq

/-- A JSON-RPC response always carries either a `result` field or an
`error` field. -/
inductive RpcOutcome where
  | success (id : Option Int)
  | failure (id : Option Int) (code : Int)
deriving Repr, DecidableEq

/-- The `jsonRpcRequest.id || null` coercion (a zero id is falsy in
JavaScript). -/
def jsIdOrNull (i : Option Int) : Option Int :=
  match i with
  | some v => if v = 0 then none else some v
  | none => none

/-- The four tool names accepted by `tools/call`. -/
def validToolNames : List String :=
  ["search_documentation", "get_api_reference", "find_examples",
   "get_migration_guide"]

/-- Embedding of the JSON-RPC dispatch inside the POST handler body:
parse failure, envelope check, the three methods, per-method parameter
validation, tool-name validation, and tool execution (whose outcome is
the parameter `toolRun`). -/
def dispatchRpc (parse : Except Unit RpcRequest)
    (toolRun : String → Except Unit Unit) : RpcOutcome :=
  match parse with
  | Except.error _ => RpcOutcome.failure none (-32700)
  | Except.ok r =>
    if r.jsonrpcVersion ≠ "2.0" then
      RpcOutcome.failure (jsIdOrNull r.idField) (-32600)
    else if r.method = "initialize" then
      if ¬ r.hasProtocolVersion then RpcOutcome.failure r.idField (-32602)
      else RpcOutcome.success r.idField
    else if r.method = "tools/list" then
      RpcOutcome.success r.idField
    else if r.method = "tools/call" then
      match r.toolName with
      | none => RpcOutcome.failure r.idField (-32602)
      | some n =>
        if ¬ validToolNames.contains n then
          RpcOutcome.failure r.idField (-32602)
        else if ¬ r.argsValid then
          RpcOutcome.failure r.idField (-32602)
        else
          match toolRun n with
          | Except.ok _ => RpcOutcome.success r.idField
          | Except.error _ => RpcOutcome.failure r.idField (-32603)
    else
      RpcOutcome.failure r.idField (-32601)

/-- The body a POST response carries: transport-level plain text, or a
JSON-RPC payload. -/
inductive PostPayload where
  | plainText (s : String)
  | rpc (o : RpcOutcome)
deriving Repr, DecidableEq

/-- Embedding of the POST /mcp handler: missing `sessionId` is HTTP
400, an id not in `activeTransports` is HTTP 404, and a live session
always answers HTTP 200 with the dispatched JSON-RPC payload. -/
def handlePost (sessions : List String) (sid : Option String)
    (parse : Except Unit RpcRequest) (toolRun : String → Except Unit Unit) :
    Nat × PostPayload :=
  match sid with
  | none => (400, PostPayload.plainText "Missing sessionId parameter")
  | some s =>
    if sessions.contains s then
      (200, PostPayload.rpc (dispatchRpc parse toolRun))
    else
      (404, PostPayload.plainText "Session not found")

/-- Embedding of the `transport.onclose` cleanup on the GET handler:
the session id is removed from `activeTransports`. -/
def closeSession (s : String) (sessions : List String) : List String :=
  sessions.erase s

/-- Whether a JSON-RPC payload carries a `result` field. -/
def isRpcResult : RpcOutcome → Bool
  | RpcOutcome.success _ => true
  | RpcOutcome.failure _ _ => false

/-- Whether a JSON-RPC payload carries an `error` field. -/
def isRpcError : RpcOutcome → Bool
  | RpcOutcome.success _ => false
  | RpcOutcome.failure _ _ => true

/-! ## Concrete fixtures used by the scenario claims -/

/-- Fixture entry with an exact title match for the search scenario. -/
def entryExact : DocEntry :=
  { title := "create browser window", content := "Create a browser window.",
    url := "u1", etype := EntryType.apiDoc, source := "electron",
    language := none, hasDescription := false }

/-- Fixture entry matching every term only in its content. -/
def entryWeak : DocEntry :=
  { title := "Window basics", content := "create a browser window fast",
    url := "u2", etype := EntryType.guideDoc, source := "electron",
    language := none, hasDescription := false }

/-- Fixture entry matching none of the query terms. -/
def entryOff : DocEntry :=
  { title := "Menu guide", content := "menus",
    url := "u3", etype := EntryType.guideDoc, source := "electron",
    language := none, hasDescription := false }

/-- A single configured electron scraper resolving with the 3-entry
fixture. -/
def fixtureScrapers : List (String × Except String ScraperResult) :=
  [("electron", Except.ok
    { entries := [entryOff, entryWeak, entryExact], source := "electron",
      scrapedAt := 0, errors := none })]

/-- Fixture for the lookup-fallback claim: a first entry whose title
matches nothing. -/
def entryOverview : DocEntry :=
  { title := "Overview", content := "", url := "o", etype := EntryType.apiDoc,
    source := "electron", language := none, hasDescription := false }

/-- Fixture for the lookup-fallback claim: an entry titled `app`. -/
def entryApp : DocEntry :=
  { title := "app", content := "", url := "a", etype := EntryType.apiDoc,
    source := "electron", language := none, hasDescription := false }

/-- The metacharacters of JavaScript regex syntax: a term containing
one of these is not counted literally by `new RegExp(term, 'g')`. -/
def jsRegexMetachar (c : Char) : Bool :=
  c = '\\' || c = '^' || c = '$' || c = '.' || c = '*' || c = '+'
    || c = '?' || c = '(' || c = ')' || c = '[' || c = ']'
    || c = '\x7b' || c = '\x7d' || c = '|'

/-- Fixture entry for the invalid-regex-term input: its title and
content literally contain `c++`, so it passes the keep filter and the
scoring step runs on it. -/
def entryCpp : DocEntry :=
  { title := "C++ Guide", content := "learn c++ basics",
    url := "u4", etype := EntryType.guideDoc, source := "github",
    language := none, hasDescription := false }
/-! ### Facts about the sanitizer output -/

theorem collapseUnd_allowed (l : List Char) (hl : ∀ c ∈ l, jsAllowedChar c) :
    ∀ prev, ∀ c ∈ collapseUnd prev l, jsAllowedChar c := by
  induction l with
  | nil =>
    intro prev c hc
    rw [show collapseUnd prev [] = [] from rfl] at hc
    simp at hc
  | cons a t ih =>
    intro prev c hc
    have ha : jsAllowedChar a = true := hl a (by simp)
    have ht : ∀ c ∈ t, jsAllowedChar c := fun c hc => hl c (by simp [hc])
    by_cases h : a = '_'
    · subst h
      cases prev with
      | true =>
        simp only [collapseUnd, if_pos rfl, if_pos rfl] at hc
        exact ih ht true c hc
      | false =>
        simp only [collapseUnd, if_pos rfl, if_neg (Bool.false_ne_true)] at hc
        cases hc with
        | head => exact ha
        | tail _ hmem => exact ih ht true c hmem
    · simp only [collapseUnd, if_neg h, List.mem_cons] at hc
      rcases hc with rfl | hc
      · exact ha
      · exact ih ht false c hc

theorem sanitizeFilename_allowed (s : String) :
    ∀ c ∈ (sanitizeFilename s).data, jsAllowedChar c := by
  intro c hc
  have h1 : c ∈ collapseUnd false (replaceDisallowed s.data) := by
    have := List.take_subset 255 (collapseUnd false (replaceDisallowed s.data))
    exact this (by simpa [sanitizeFilename] using hc)
  refine collapseUnd_allowed _ ?_ false c h1
  intro d hd
  simp only [replaceDisallowed, List.mem_map] at hd
  obtain ⟨e, _, he⟩ := hd
  by_cases h : jsAllowedChar e
  · rw [← he]; simp [h]
  · rw [← he]; simp [h]; decide

theorem sanitizeFilename_no_dot (s : String) : '.' ∉ (sanitizeFilename s).data := by
  intro h
  have := sanitizeFilename_allowed s '.' h
  simp [jsAllowedChar] at this

theorem sanitizeFilename_nonempty (s : String) (hs : s ≠ "") :
    (sanitizeFilename s).data ≠ [] := by
  have hd : s.data ≠ [] := by
    intro h
    apply hs
    cases s with
    | mk d => simp at h; simp [h]
  cases hsd : s.data with
  | nil => exact absurd hsd hd
  | cons a t =>
    simp only [sanitizeFilename, replaceDisallowed, hsd, List.map_cons]
    by_cases h : jsAllowedChar a
    · by_cases h2 : a = '_'
      · subst h2
        simp only [if_pos h, collapseUnd, if_pos rfl]
        intro hfalse
        simp at hfalse
      · simp only [if_pos h, collapseUnd, if_neg h2]
        intro hfalse
        simp at hfalse
    · simp only [if_neg h, collapseUnd, if_pos rfl]
      intro hfalse
      simp at hfalse

theorem string_ne_length_pos (s : String) (hs : s ≠ "") : s.length ≠ 0 := by
  intro h
  apply hs
  cases s with
  | mk d =>
    cases d with
    | nil => rfl
    | cons a t => simp [String.length] at h

/-- C1 (amended): for every nonempty key of at most 200 characters —
including every key that contains `..` or starts with `.` —
`FileStorage.getFilename` does not reject the key: it silently remaps
it to `sanitizeFilename(key) + ".json"`, a name that never starts with
a dot and never contains `..` (so the explicit rejection branch is
unreachable); only empty and over-long keys are rejected. -/
theorem getFilename_remaps_unsafe_keys (key : String)
    (h1 : key ≠ "") (h2 : key.length ≤ 200) :
    getFilename key = Except.ok (sanitizeFilename key ++ ".json") ∧
    (sanitizeFilename key ++ ".json").data.head? ≠ some '.' ∧
    ¬ ['.', '.'] <:+: (sanitizeFilename key ++ ".json").data := by
  have hnd : '.' ∉ (sanitizeFilename key).data := sanitizeFilename_no_dot key
  have hne : (sanitizeFilename key).data ≠ [] := sanitizeFilename_nonempty key h1
  have hdata : (sanitizeFilename key ++ ".json").data
      = (sanitizeFilename key).data ++ ['.', 'j', 's', 'o', 'n'] := by
    rw [String.data_append]
  have hhead : (sanitizeFilename key ++ ".json").data.head? ≠ some '.' := by
    rw [hdata]
    cases hsd : (sanitizeFilename key).data with
    | nil => exact absurd hsd hne
    | cons a t =>
      simp only [List.cons_append, List.head?_cons, ne_eq, Option.some.injEq]
      intro hadot
      apply hnd
      rw [hsd, hadot]
      simp
  have hinf : ¬ ['.', '.'] <:+: (sanitizeFilename key ++ ".json").data := by
    intro hi
    have hcount := hi.count_le '.'
    rw [hdata, List.count_append] at hcount
    have hz : List.count '.' (sanitizeFilename key).data = 0 :=
      List.count_eq_zero.mpr hnd
    rw [hz] at hcount
    simp [List.count_cons] at hcount
  refine ⟨?_, hhead, hinf⟩
  unfold getFilename
  rw [if_neg (string_ne_length_pos key h1), if_neg (by omega)]
  have hheadSan : (decide ((sanitizeFilename key).data.head? = some '.')) = false := by
    simp only [decide_eq_false_iff_not]
    cases hsd : (sanitizeFilename key).data with
    | nil => simp
    | cons a t =>
      simp only [List.head?_cons, Option.some.injEq]
      intro hadot
      apply hnd
      rw [hsd, hadot]
      simp
  have hincSan : jsIncludes (sanitizeFilename key).data ['.', '.'] = false := by
    simp only [jsIncludes, decide_eq_false_iff_not]
    intro hi
    exact hnd (hi.subset (by simp))
  simp only [hheadSan, hincSan, Bool.or_self, Bool.false_or]
  rfl

/-- Witness for the amended path-safety theorem at the concrete key
`a..b`. -/
theorem getFilename_remaps_unsafe_keys_witness :
    ("a..b" : String) ≠ "" ∧ ("a..b" : String).length ≤ 200 ∧
    getFilename "a..b" = Except.ok (sanitizeFilename "a..b" ++ ".json") :=
  ⟨by decide, by decide,
    (getFilename_remaps_unsafe_keys "a..b" (by decide) (by decide)).1⟩

/-- C1 counterexample: the key `a..b` contains `..`, yet no durable
operation rejects it — `getFilename` maps it to the sanitized name
`a_b.json` and `FileStorage.set` performs a durable write under that
remapped name. -/
theorem getFilename_dotdot_not_rejected :
    getFilename "a..b" = Except.ok "a_b.json" ∧
    fileSetE "a..b" (CacheEntryM.mk 0 0 60) ([] : List (String × CacheEntryM Nat))
      = Except.ok [("a_b.json", CacheEntryM.mk 0 0 60)] := by
  constructor
  · rfl
  · rfl

/-- C4: `DocumentationCache.get` implements exactly the specified
two-tier lookup: memory tier first (unexpired entry returned, expired
entry evicted with fall-through), then the durable tier (unexpired
entry repopulated into memory and returned, expired entry deleted from
the durable tier), otherwise a miss. -/
theorem cacheGet_eq_spec {α : Type} (st : CacheState α) (key : String) (now : Nat) :
    cacheGet st key now = cacheGetSpec st key now := by
  have hfile : ∀ st2 : CacheState α, cacheGetFile st2 key now = cacheGetSpecFile st2 key now := by
    intro st2
    unfold cacheGetFile cacheGetSpecFile fileGetE durableLookup fileDeleteE durableErase
    cases hg : getFilename key with
    | error e => simp [Except.map]
    | ok fn =>
      simp only [Except.map]
      cases hl : st2.files.lookup fn with
      | none => simp
      | some fe =>
        cases hex : isCacheExpired now fe.timestamp fe.ttl <;> simp
  unfold cacheGet cacheGetSpec
  cases st.memory.lookup key with
  | none => exact hfile st
  | some e =>
    cases isCacheExpired now e.timestamp e.ttl <;> simp [hfile]

/-- C10: `MCPDocsServer.stop` (run by the SIGINT/SIGTERM handlers)
clears the memory tier and deletes every durable file, so a cold
process instance sharing the same durable root misses on every key,
even before any TTL has expired. -/
theorem serverStop_clears_everything {α : Type} (st : CacheState α) :
    (serverStop st).memory = [] ∧ (serverStop st).files = [] ∧
    ∀ key now, cacheGet (coldStart (α := α) (serverStop st).files) key now
      = (none, coldStart (serverStop st).files) := by
  refine ⟨rfl, rfl, ?_⟩
  intro key now
  unfold serverStop cacheClear coldStart cacheGet cacheGetFile fileGetE
  cases hg : getFilename key with
  | error e => simp [Except.map]
  | ok fn => simp [Except.map]

theorem filterMap_keys_eq (p : List (String × JsVal)) (h : (jsKeys p).Nodup) :
    (jsKeys p).filterMap
      (fun k => (p.lookup k).bind (fun v => if isNullish v then none else some (k, v)))
      = p.filter (fun e => !isNullish e.2) := by
  induction p with
  | nil => simp [jsKeys]
  | cons e t ih =>
    obtain ⟨k, v⟩ := e
    have h2 : (jsKeys t).Nodup ∧ k ∉ jsKeys t := by
      simp only [jsKeys, List.map_cons, List.nodup_cons] at h
      exact ⟨h.2, h.1⟩
    have hlk : ((k, v) :: t).lookup k = some v := by
      simp [List.lookup]
    have hcongr : ∀ k2 ∈ jsKeys t,
        (((k, v) :: t).lookup k2).bind (fun v2 => if isNullish v2 then none else some (k2, v2))
          = (t.lookup k2).bind (fun v2 => if isNullish v2 then none else some (k2, v2)) := by
      intro k2 hk2
      have hne : (k2 == k) = false := by
        have : k2 ≠ k := fun hcon => h2.2 (hcon ▸ hk2)
        simpa using this
      simp [List.lookup, hne]
    have htail : (jsKeys t).filterMap
        (fun k2 => (((k, v) :: t).lookup k2).bind (fun v2 => if isNullish v2 then none else some (k2, v2)))
        = t.filter (fun e => !isNullish e.2) := by
      rw [List.filterMap_congr hcongr]
      exact ih h2.1
    show ((k :: jsKeys t).filterMap
        (fun k2 => (((k, v) :: t).lookup k2).bind (fun v2 => if isNullish v2 then none else some (k2, v2))))
      = ((k, v) :: t).filter (fun e => !isNullish e.2)
    rw [List.filterMap_cons, hlk]
    by_cases hn : isNullish v
    · simp [hn, htail, List.filter_cons]
    · simp [hn, htail, List.filter_cons]

theorem canonicalParams_perm (p : List (String × JsVal)) (h : (jsKeys p).Nodup) :
    (canonicalParams p).Perm (p.filter (fun e => !isNullish e.2)) := by
  unfold canonicalParams
  have hperm : ((jsKeys p).mergeSort strLe).Perm (jsKeys p) :=
    List.mergeSort_perm _ _
  exact (hperm.filterMap _).trans (by rw [filterMap_keys_eq p h])

theorem pairwise_filterMap_fst {R : String → String → Prop}
    (f : String → Option (String × JsVal))
    (hf : ∀ k x, f k = some x → x.1 = k) :
    ∀ l : List String, l.Pairwise R → (l.filterMap f).Pairwise (fun a b => R a.1 b.1) := by
  intro l
  induction l with
  | nil => intro _; simp
  | cons k t ih =>
    intro hp
    rw [List.pairwise_cons] at hp
    obtain ⟨hk, ht⟩ := hp
    rw [List.filterMap_cons]
    cases hfk : f k with
    | none => exact ih ht
    | some x =>
      rw [List.pairwise_cons]
      refine ⟨?_, ih ht⟩
      intro y hy
      rw [List.mem_filterMap] at hy
      obtain ⟨k2, hk2, hfk2⟩ := hy
      rw [hf k x hfk, hf k2 y hfk2]
      exact hk k2 hk2

theorem canonicalParams_sorted (p : List (String × JsVal)) (h : (jsKeys p).Nodup) :
    (canonicalParams p).Pairwise (fun a b : String × JsVal => a.1 < b.1) := by
  unfold canonicalParams
  have htrans : ∀ a b c : String, strLe a b = true → strLe b c = true → strLe a c = true := by
    intro a b c hab hbc
    simp only [strLe, decide_eq_true_eq] at hab hbc ⊢
    exact le_trans hab hbc
  have htotal : ∀ a b : String, (strLe a b || strLe b a) = true := by
    intro a b
    simp only [strLe, Bool.or_eq_true, decide_eq_true_eq]
    exact le_total a b
  have hsorted := List.sorted_mergeSort htrans htotal (jsKeys p)
  have hnodup : ((jsKeys p).mergeSort strLe).Nodup :=
    h.perm (List.mergeSort_perm _ _).symm
  have hstrict : ((jsKeys p).mergeSort strLe).Pairwise (fun a b : String => a < b) := by
    refine (hsorted.and hnodup).imp ?_
    intro a b hab
    exact lt_of_le_of_ne (by simpa [strLe] using hab.1) hab.2
  refine pairwise_filterMap_fst _ ?_ _ hstrict
  intro k x hx
  cases hlk : p.lookup k with
  | none =>
    rw [hlk] at hx
    exact absurd hx (by simp)
  | some v =>
    rw [hlk] at hx
    by_cases hn : isNullish v
    · rw [Option.some_bind, if_pos hn] at hx
      exact Option.noConfusion hx
    · rw [Option.some_bind, if_neg hn] at hx
      rw [← Option.some_inj.mp hx]

/-- C5: `generateCacheKey` is invariant under parameter reordering and
null/undefined padding: whenever two parameter records (with duplicate-
free keys) agree after dropping null/undefined entries — which covers
both a pure key reordering and extra null/undefined fields — the
generated keys are identical, for any digest function. -/
theorem generateCacheKey_stable (digest : String → String) (pre : String)
    (p₁ p₂ : List (String × JsVal))
    (h₁ : (jsKeys p₁).Nodup) (h₂ : (jsKeys p₂).Nodup)
    (hp : (p₁.filter (fun e => !isNullish e.2)).Perm
      (p₂.filter (fun e => !isNullish e.2))) :
    generateCacheKey digest pre p₁ = generateCacheKey digest pre p₂ := by
  have hcanon : canonicalParams p₁ = canonicalParams p₂ := by
    have hperm : (canonicalParams p₁).Perm (canonicalParams p₂) :=
      ((canonicalParams_perm p₁ h₁).trans hp).trans (canonicalParams_perm p₂ h₂).symm
    haveI : IsAntisymm (String × JsVal) (fun a b => a.1 < b.1) :=
      ⟨fun a b hab hba => absurd (lt_trans hab hba) (lt_irrefl _)⟩
    exact List.eq_of_perm_of_sorted hperm
      (canonicalParams_sorted p₁ h₁) (canonicalParams_sorted p₂ h₂)
  unfold generateCacheKey
  rw [hcanon]

/-- Witness for the fingerprint-stability theorem: two concrete records
differing in key order and in a null/undefined padding entry. -/
theorem generateCacheKey_stable_witness :
    (jsKeys [("b", JsVal.strV "1"), ("a", JsVal.numV 2), ("c", JsVal.nullV)]).Nodup ∧
    (jsKeys [("a", JsVal.numV 2), ("b", JsVal.strV "1"), ("d", JsVal.undefV)]).Nodup ∧
    ([("b", JsVal.strV "1"), ("a", JsVal.numV 2), ("c", JsVal.nullV)].filter (fun e => !isNullish e.2)).Perm
      ([("a", JsVal.numV 2), ("b", JsVal.strV "1"), ("d", JsVal.undefV)].filter (fun e => !isNullish e.2)) ∧
    generateCacheKey id "search" [("b", JsVal.strV "1"), ("a", JsVal.numV 2), ("c", JsVal.nullV)]
      = generateCacheKey id "search" [("a", JsVal.numV 2), ("b", JsVal.strV "1"), ("d", JsVal.undefV)] :=
  ⟨by decide, by decide, by decide,
    generateCacheKey_stable id "search" _ _ (by decide) (by decide) (by decide)⟩

/-- C2 (amended): the guard, which runs before every network call in
`fetchHtml`/`fetchJson`, rejects with an error — and no socket opens —
every URL whose scheme is not http/https, or whose lowercased hostname
is the literal `localhost`, the exact string `127.0.0.1` (not the whole
127.0.0.0/8 block), a `10.` or `192.168.` prefix, a textual
172.16–172.31 address, or one of the meta-addresses `0.0.0.0`, `::1`,
`[::]`. -/
theorem validateUrl_blocks (u : ParsedUrl)
    (h : ¬ (u.protocol = "http:" ∨ u.protocol = "https:")
       ∨ String.mk (jsLower u.hostname) = "localhost"
       ∨ String.mk (jsLower u.hostname) = "127.0.0.1"
       ∨ jsStartsWith (String.mk (jsLower u.hostname)) "192.168." = true
       ∨ jsStartsWith (String.mk (jsLower u.hostname)) "10." = true
       ∨ is172Private (String.mk (jsLower u.hostname)) = true
       ∨ String.mk (jsLower u.hostname) = "0.0.0.0"
       ∨ String.mk (jsLower u.hostname) = "::1"
       ∨ String.mk (jsLower u.hostname) = "[::]") :
    (∃ msg, validateUrl u = Except.error msg) ∧
    ∀ net, (fetchHtml net u).2 = false ∧
      ∃ msg, (fetchHtml net u).1 = Except.error msg := by
  have herr : ∃ msg, validateUrl u = Except.error msg := by
    unfold validateUrl
    split
    · exact ⟨_, rfl⟩
    · rename_i hprot
      have hprot2 : u.protocol = "http:" ∨ u.protocol = "https:" := by
        have hb := not_not.mp hprot
        simpa using hb
      have hhost : String.mk (jsLower u.hostname) = "localhost"
          ∨ String.mk (jsLower u.hostname) = "127.0.0.1"
          ∨ jsStartsWith (String.mk (jsLower u.hostname)) "192.168." = true
          ∨ jsStartsWith (String.mk (jsLower u.hostname)) "10." = true
          ∨ is172Private (String.mk (jsLower u.hostname)) = true
          ∨ String.mk (jsLower u.hostname) = "0.0.0.0"
          ∨ String.mk (jsLower u.hostname) = "::1"
          ∨ String.mk (jsLower u.hostname) = "[::]" := by
        rcases h with hbad | rest
        · exact absurd hprot2 hbad
        · exact rest
      unfold validateHostname
      split
      · exact ⟨_, rfl⟩
      · rename_i hc1
        split
        · exact ⟨_, rfl⟩
        · rename_i hc2
          exfalso
          simp only [Bool.or_eq_true, decide_eq_true_eq, not_or] at hc1 hc2
          tauto
  obtain ⟨msg, hmsg⟩ := herr
  refine ⟨⟨msg, hmsg⟩, ?_⟩
  intro net
  unfold fetchHtml
  rw [hmsg]
  exact ⟨rfl, ⟨msg, rfl⟩⟩

/-- Witness for the fetch-guard theorem at the concrete blocked URL
`ftp://example.com`. -/
theorem validateUrl_blocks_witness :
    (∃ msg, validateUrl { protocol := "ftp:", hostname := "example.com" }
      = Except.error msg) ∧
    (fetchHtml (fun _ => Except.ok "") { protocol := "ftp:", hostname := "example.com" }).2
      = false :=
  ⟨(validateUrl_blocks { protocol := "ftp:", hostname := "example.com" }
      (Or.inl (by decide))).1,
   ((validateUrl_blocks { protocol := "ftp:", hostname := "example.com" }
      (Or.inl (by decide))).2 (fun _ => Except.ok "")).1⟩

/-- C2 counterexample: `http://127.0.0.2/` names a loopback address in
127.0.0.0/8, yet the guard accepts it and the socket opens — the code
compares against the literal `127.0.0.1` only. -/
theorem validateUrl_loopback_not_blocked :
    validateUrl { protocol := "http:", hostname := "127.0.0.2" } = Except.ok () ∧
    (fetchHtml (fun _ => Except.ok "page")
      { protocol := "http:", hostname := "127.0.0.2" }).2 = true := by
  constructor
  · rfl
  · rfl

theorem collectSearch_soft_error (scrapers : List (String × Except String ScraperResult))
    (requested : List String) (s : String)
    (hs : s ∈ requested) (hmiss : scrapers.lookup s = none) :
    ("Scraper not configured for source: " ++ s) ∈ (collectSearch scrapers requested).2 := by
  induction requested with
  | nil => cases hs
  | cons a rest ih =>
    rcases List.mem_cons.mp hs with heq | hmem
    · subst heq
      simp [collectSearch, hmiss]
    · cases hla : scrapers.lookup a with
      | none => simp [collectSearch, hla, ih hmem]
      | some r =>
        cases r with
        | error e => simp [collectSearch, hla, ih hmem]
        | ok r => simp [collectSearch, hla, ih hmem]

theorem collectSearch_skips_unconfigured (scrapers : List (String × Except String ScraperResult))
    (requested : List String) :
    (collectSearch scrapers requested).1
      = (collectSearch scrapers
          (requested.filter (fun x => (scrapers.lookup x).isSome))).1 := by
  induction requested with
  | nil => rfl
  | cons a rest ih =>
    cases hla : scrapers.lookup a with
    | none => simp [collectSearch, List.filter_cons, hla, ih]
    | some r =>
      cases r with
      | error e => simp [collectSearch, List.filter_cons, hla, ih]
      | ok r => simp [collectSearch, List.filter_cons, hla, ih]

theorem collectExamples_soft_error (scrapers : List (String × Except String ScraperResult))
    (requested : List String) (s : String)
    (hs : s ∈ requested) (hmiss : scrapers.lookup s = none) :
    ("Scraper not configured for source: " ++ s) ∈ (collectExamples scrapers requested).2 := by
  induction requested with
  | nil => cases hs
  | cons a rest ih =>
    rcases List.mem_cons.mp hs with heq | hmem
    · subst heq
      simp [collectExamples, hmiss]
    · cases hla : scrapers.lookup a with
      | none => simp [collectExamples, hla, ih hmem]
      | some r =>
        cases r with
        | error e => simp [collectExamples, hla, ih hmem]
        | ok r => simp [collectExamples, hla, ih hmem]

theorem collectExamples_skips_unconfigured (scrapers : List (String × Except String ScraperResult))
    (requested : List String) :
    (collectExamples scrapers requested).1
      = (collectExamples scrapers
          (requested.filter (fun x => (scrapers.lookup x).isSome))).1 := by
  induction requested with
  | nil => rfl
  | cons a rest ih =>
    cases hla : scrapers.lookup a with
    | none => simp [collectExamples, List.filter_cons, hla, ih]
    | some r =>
      cases r with
      | error e => simp [collectExamples, List.filter_cons, hla, ih]
      | ok r => simp [collectExamples, List.filter_cons, hla, ih]

/-- C3 (amended): of the four retrieval operations only the two
multi-source ones treat an unconfigured source softly: search and
find-examples append a soft entry to their error list, never throw, and
still return exactly what the configured requested sources yielded;
get-api-reference and get-migration-guide, whose request names a single
source, throw (reject) with a "Scraper not configured" error instead. -/
theorem unconfigured_source_handling
    (scrapers : List (String × Except String ScraperResult))
    (requested : List String) (s : String)
    (hs : s ∈ requested) (hmiss : scrapers.lookup s = none) :
    (∀ query ty limit, ("Scraper not configured for source: " ++ s)
      ∈ (searchMiss scrapers query (some requested) ty limit).2.1) ∧
    (∀ topic lang limit, ("Scraper not configured for source: " ++ s)
      ∈ (findExamplesMiss scrapers topic (some requested) lang limit).2.1) ∧
    ((collectSearch scrapers requested).1
      = (collectSearch scrapers
          (requested.filter (fun x => (scrapers.lookup x).isSome))).1) ∧
    ((collectExamples scrapers requested).1
      = (collectExamples scrapers
          (requested.filter (fun x => (scrapers.lookup x).isSome))).1) ∧
    (∀ apiName, getApiReference scrapers apiName s
      = Except.error ("Scraper not configured for source: " ++ s)) ∧
    (∀ fromV toV, getMigrationGuide scrapers s fromV toV
      = Except.error ("Scraper not configured for source: " ++ s)) := by
  refine ⟨?_, ?_, collectSearch_skips_unconfigured scrapers requested,
    collectExamples_skips_unconfigured scrapers requested, ?_, ?_⟩
  · intro query ty limit
    exact collectSearch_soft_error scrapers requested s hs hmiss
  · intro topic lang limit
    exact collectExamples_soft_error scrapers requested s hs hmiss
  · intro apiName
    unfold getApiReference
    rw [hmiss]
  · intro fromV toV
    unfold getMigrationGuide
    rw [hmiss]

/-- Witness for the unconfigured-source theorem with no configured
scraper and the single requested source `electron`. -/
theorem unconfigured_source_handling_witness :
    ("Scraper not configured for source: electron")
      ∈ (searchMiss [] "q" (some ["electron"]) none 10).2.1 ∧
    getMigrationGuide [] "electron" "1.0.0" "2.0.0"
      = Except.error "Scraper not configured for source: electron" :=
  ⟨(unconfigured_source_handling [] ["electron"] "electron"
      (by decide) rfl).1 "q" none 10,
   (unconfigured_source_handling [] ["electron"] "electron"
      (by decide) rfl).2.2.2.2.2 "1.0.0" "2.0.0"⟩

/-- C3 counterexample: `get_migration_guide` for an unconfigured source
throws instead of producing a soft error-list entry. -/
theorem getMigrationGuide_unconfigured_throws :
    getMigrationGuide [] "electron" "1.0.0" "2.0.0"
      = Except.error "Scraper not configured for source: electron" ∧
    getApiReference [] "app" "electron"
      = Except.error "Scraper not configured for source: electron" := by
  constructor
  · rfl
  · rfl

/-- C7: `ElectronScraper.scrape` always resolves to an ordinary
`ScraperResult` — it is a total function in the embedding, so no
internal failure escapes: a resolved inner operation yields its entries
with no errors, and a thrown one (network, parse or guard rejection)
yields an empty entry list and an error list recording the failure. -/
theorem electronScrape_never_throws
    (inner : ElectronIntent → Except String (List DocEntry))
    (intent : ElectronIntent) (now : Nat) :
    (electronScrape inner intent now).source = "electron" ∧
    (∀ es, inner intent = Except.ok es →
      (electronScrape inner intent now).entries = es ∧
      (electronScrape inner intent now).errors = none) ∧
    (∀ m, inner intent = Except.error m →
      (electronScrape inner intent now).entries = [] ∧
      (electronScrape inner intent now).errors
        = some ["Failed to scrape Electron docs: " ++ m]) := by
  refine ⟨?_, ?_, ?_⟩
  · unfold electronScrape
    cases inner intent with
    | ok es => rfl
    | error m => rfl
  · intro es hes
    unfold electronScrape
    rw [hes]
    exact ⟨rfl, rfl⟩
  · intro m hm
    unfold electronScrape
    rw [hm]
    exact ⟨rfl, rfl⟩

/-- Witness for the non-throwing scrape contract at a concrete failing
inner operation. -/
theorem electronScrape_never_throws_witness :
    (electronScrape (fun _ => Except.error "net down")
      ElectronIntent.defaultIntent 0).entries = [] ∧
    (electronScrape (fun _ => Except.error "net down")
      ElectronIntent.defaultIntent 0).errors
      = some ["Failed to scrape Electron docs: net down"] :=
  (electronScrape_never_throws (fun _ => Except.error "net down")
    ElectronIntent.defaultIntent 0).2.2 "net down" rfl

/-- C9: evaluation of `findBestMatch` at a failing input.  The regex
class `[.-_]` is a character range from `.` to `_` that excludes the
dash, so the name `x-app` is never split into `x` and `app`; the token
tier finds nothing and the first entry (`Overview`) is returned, while
the documented split on `.`, `-`, `_` would select the entry titled
`app`. -/
theorem findBestMatch_range_slip :
    findBestMatch [entryOverview, entryApp] "x-app" = some entryOverview ∧
    splitCls isDotRange (jsLower "x-app") = [jsLower "x-app"] ∧
    isDotRange '-' = false ∧ isDotRange '5' = true := by
  refine ⟨?_, ?_, ?_, ?_⟩
  · rfl
  · rfl
  · rfl
  · rfl

/-- C8: on the streaming binding, a POST without a `sessionId` is HTTP
400; a POST whose id names no live session — including one removed by
the close handler — is HTTP 404 with the distinct "Session not found"
body; and a POST against a live session is always HTTP 200 whose
JSON-RPC payload carries exactly one of a `result` or an `error` field,
so the transport-level 400/404 status codes are never used for
application errors. -/
theorem handlePost_status_contract (sessions : List String)
    (parse : Except Unit RpcRequest) (toolRun : String → Except Unit Unit) :
    (handlePost sessions none parse toolRun
      = (400, PostPayload.plainText "Missing sessionId parameter")) ∧
    (∀ s, s ∉ sessions → handlePost sessions (some s) parse toolRun
      = (404, PostPayload.plainText "Session not found")) ∧
    (∀ s, s ∈ sessions → handlePost sessions (some s) parse toolRun
      = (200, PostPayload.rpc (dispatchRpc parse toolRun))) ∧
    ((isRpcResult (dispatchRpc parse toolRun)
      ^^ isRpcError (dispatchRpc parse toolRun)) = true) ∧
    (∀ s, sessions.Nodup → handlePost (closeSession s sessions) (some s) parse toolRun
      = (404, PostPayload.plainText "Session not found")) := by
  refine ⟨rfl, ?_, ?_, ?_, ?_⟩
  · intro s hs
    simp [handlePost, hs]
  · intro s hs
    simp [handlePost, hs]
  · cases dispatchRpc parse toolRun with
    | success i => rfl
    | failure i c => rfl
  · intro s hnd
    have hne : s ∉ sessions.erase s := hnd.not_mem_erase
    simp [handlePost, closeSession, hne]

/-- Witness for the transport status contract: one live session, a
parse failure, then the same id after close. -/
theorem handlePost_status_contract_witness :
    handlePost ["s1"] (some "s1") (Except.error ()) (fun _ => Except.ok ())
      = (200, PostPayload.rpc (RpcOutcome.failure none (-32700))) ∧
    handlePost (closeSession "s1" ["s1"]) (some "s1") (Except.error ())
      (fun _ => Except.ok ())
      = (404, PostPayload.plainText "Session not found") :=
  ⟨(handlePost_status_contract ["s1"] (Except.error ()) (fun _ => Except.ok ())).2.2.1
      "s1" (by decide),
   (handlePost_status_contract ["s1"] (Except.error ()) (fun _ => Except.ok ())).2.2.2.2
      "s1" (by decide)⟩

/-- Characterization of the ranking pipeline under the specified
occurrence-count scoring (the semantics the source exhibits on
metacharacter-free query terms): the kept set is exactly the entries
matching every whitespace-split term under the optional kind filter,
the output is sorted by non-increasing `scoreEntry`, the returned
entries are the first `limit` with `totalCount` the pre-truncation
match count, the cache TTL is 1800 seconds, and on the 3-entry fixture
the exact-title entry is ranked first. -/
theorem search_filter_rank_spec :
    (∀ (entries : List DocEntry) (query : String) (ty : Option EntryType),
      (filterAndRankEntries entries query ty).Perm
        (entries.filter (keepEntry (splitCls isJsWs (jsLower query)) ty)) ∧
      (filterAndRankEntries entries query ty).Pairwise
        (fun a b => scoreEntry (jsLower query) (splitCls isJsWs (jsLower query)) b
          ≤ scoreEntry (jsLower query) (splitCls isJsWs (jsLower query)) a)) ∧
    (∀ scrapers (query : String) sourcesOpt ty (limit : Nat),
      (searchMiss scrapers query sourcesOpt ty limit).1.entries
        = (filterAndRankEntries
            (collectSearch scrapers (sourcesOpt.getD (scrapers.map Prod.fst))).1
            query ty).take limit ∧
      (searchMiss scrapers query sourcesOpt ty limit).1.totalCount
        = (filterAndRankEntries
            (collectSearch scrapers (sourcesOpt.getD (scrapers.map Prod.fst))).1
            query ty).length ∧
      (searchMiss scrapers query sourcesOpt ty limit).2.2 = 1800) ∧
    ((searchMiss fixtureScrapers "create browser window" (some ["electron"]) none 5).1.entries.head?
        = some entryExact ∧
      (searchMiss fixtureScrapers "create browser window" (some ["electron"]) none 5).1.totalCount
        = 2 ∧
      (searchMiss fixtureScrapers "create browser window" (some ["electron"]) none 5).1.entries.length
        ≤ 5) := by
  have hcore : ∀ (entries : List DocEntry) (query : String) (ty : Option EntryType),
      (filterAndRankEntries entries query ty).Perm
        (entries.filter (keepEntry (splitCls isJsWs (jsLower query)) ty)) ∧
      (filterAndRankEntries entries query ty).Pairwise
        (fun a b => scoreEntry (jsLower query) (splitCls isJsWs (jsLower query)) b
          ≤ scoreEntry (jsLower query) (splitCls isJsWs (jsLower query)) a) := by
    intro entries query ty
    haveI : IsTotal (DocEntry × Nat) (fun a b => b.2 ≤ a.2) :=
      ⟨fun a b => le_total b.2 a.2⟩
    haveI : IsTrans (DocEntry × Nat) (fun a b => b.2 ≤ a.2) :=
      ⟨fun _ _ _ hab hbc => le_trans hbc hab⟩
    constructor
    · unfold filterAndRankEntries
      have hperm := List.perm_insertionSort
        (fun a b : DocEntry × Nat => b.2 ≤ a.2)
        ((entries.filter (keepEntry (splitCls isJsWs (jsLower query)) ty)).map
          (fun e => (e, scoreEntry (jsLower query) (splitCls isJsWs (jsLower query)) e)))
      have := hperm.map Prod.fst
      simpa [List.map_map, Function.comp_def] using this
    · unfold filterAndRankEntries
      have hsorted := List.sorted_insertionSort
        (fun a b : DocEntry × Nat => b.2 ≤ a.2)
        ((entries.filter (keepEntry (splitCls isJsWs (jsLower query)) ty)).map
          (fun e => (e, scoreEntry (jsLower query) (splitCls isJsWs (jsLower query)) e)))
      have hmem : ∀ x ∈ List.insertionSort (fun a b : DocEntry × Nat => b.2 ≤ a.2)
          ((entries.filter (keepEntry (splitCls isJsWs (jsLower query)) ty)).map
            (fun e => (e, scoreEntry (jsLower query) (splitCls isJsWs (jsLower query)) e))),
          x.2 = scoreEntry (jsLower query) (splitCls isJsWs (jsLower query)) x.1 := by
        intro x hx
        have hx2 := (List.perm_insertionSort
          (fun a b : DocEntry × Nat => b.2 ≤ a.2) _).mem_iff.mp hx
        rw [List.mem_map] at hx2
        obtain ⟨e, _, he⟩ := hx2
        rw [← he]
      rw [List.pairwise_map]
      refine hsorted.imp_of_mem ?_
      intro a b ha hb hr
      rw [← hmem a ha, ← hmem b hb]
      exact hr
  refine ⟨hcore, ?_, ?_, ?_, ?_⟩
  · intro scrapers query sourcesOpt ty limit
    exact ⟨rfl, rfl, rfl⟩
  · rfl
  · rfl
  · decide

/-- C6: evaluation of the embedded pipeline at the failing input.  The
query `c++` survives whitespace splitting as the single term `c++`; the
fixture entry containing `c++` literally passes the keep filter (the
filter uses literal `includes`), so the scoring map runs on it; the
intended occurrence count of the term in the entry content is 1 (and 1
in the title); and the term contains regex metacharacters.  At exactly
this point the source computes `new RegExp('c++', 'g')`, which throws a
SyntaxError (nothing to repeat), so `search` rejects instead of
scoring, ranking, returning and caching the entry as the claim states. -/
theorem search_invalid_regex_term_reaches_scoring :
    splitCls isJsWs (jsLower "c++") = [['c', '+', '+']] ∧
    keepEntry [['c', '+', '+']] none entryCpp = true ∧
    [entryCpp].filter (keepEntry [['c', '+', '+']] none) = [entryCpp] ∧
    countOcc ['c', '+', '+'] (jsLower entryCpp.content) = 1 ∧
    countOcc ['c', '+', '+'] (jsLower entryCpp.title) = 1 ∧
    ['c', '+', '+'].any jsRegexMetachar = true := by
  refine ⟨?_, ?_, ?_, ?_, ?_, ?_⟩
  · rfl
  · rfl
  · rfl
  · rfl
  · rfl
  · rfl
